import Mathlib

/-!
Verification of the PDL interpreter (src/pdl/pdl_interpreter.py).

The interpreter is embedded shallowly: Python dictionaries become
association lists with dict-update semantics, Python objects that can be
mutated after construction (closures) live in an explicit heap, the
external collaborators (model backend, HTTP client, code executor, input
provider) are oracles packaged in an environment record, and uncaught
Python exceptions become the error side of an Except monad.  Recursion
of the evaluator is bounded by an explicit fuel parameter; running out
of fuel is a distinguished outcome that no theorem below confuses with a
genuine fault of the interpreted program.
-/

/-- JSON-like runtime values of the interpreter.  A closure value is a
reference into the closure heap (mirroring Python object identity, which
is what makes the self-referential captured scope of a FunctionBlock
representable). -/
inductive Value : Type where
  | null : Value
  | bool (b : Bool) : Value
  | num (n : Int) : Value
  | str (s : String) : Value
  | arr (vs : List Value) : Value
  | obj (kvs : List (String × Value)) : Value
  | closure (id : Nat) : Value
deriving Repr

/-- A scope is a Python dict from variable names to values: an
association list without duplicate keys, in insertion order. -/
abbrev Scope : Type := List (String × Value)

/-- First-match lookup in an association list (Python dict access). -/
def lookupVar (scope : Scope) (k : String) : Option Value :=
  match scope with
  | [] => none
  | (k₀, v₀) :: rest => if k₀ = k then some v₀ else lookupVar rest k

/-- Python dict union with a one-entry dict: replace the value of the
key in place if present, otherwise append the new entry. -/
def setVar (scope : Scope) (k : String) (v : Value) : Scope :=
  match scope with
  | [] => [(k, v)]
  | (k₀, v₀) :: rest => if k₀ = k then (k₀, v) :: rest else (k₀, v₀) :: setVar rest k v

/-- Python dict union with an arbitrary dict (the right operand wins). -/
def updScope (scope : Scope) (kvs : List (String × Value)) : Scope :=
  kvs.foldl (fun s kv => setVar s kv.1 kv.2) scope

/-- Uncaught Python exceptions (and fuel exhaustion of the embedding). -/
inductive Fatal : Type where
  | outOfFuel
  | keyError (k : String)
  | typeError (msg : String)
  | attrError (msg : String)
  | assertionError
  | pythonError (msg : String)
  | ioError (msg : String)
deriving Repr, DecidableEq

mutual
/-- One node of the program tree.  Every block carries the fields common
to all pdl_ast block classes: defs, assign, show_result, and the result
field that trace construction fills in (None in source programs). -/
inductive Block : Type where
  | mk (defs : List Block) (assign : Option String) (show_result : Bool)
       (result : Option String) (body : BlockBody) : Block

/-- The variant-specific payload of a block, one constructor per
pdl_ast block class handled by process_block_body.  Trace-only fields
(input trace of a model block, per-iteration traces of loops, the inner
trace of a call) are part of the constructor, empty in source programs. -/
inductive BlockBody : Type where
  | model (model : String) (input : Option Prompt)
          (stop_sequences : Option (List String))
          (include_stop_sequences : Option Bool) : BlockBody
  | code (lan : String) (code : List Prompt) : BlockBody
  | get (get : String) : BlockBody
  | value (value : Value) : BlockBody
  | api (url : String) (input : Prompt) : BlockBody
  | sequence (prompts : List Prompt) : BlockBody
  | ifte (condition : Condition) (prompts : List Prompt) : BlockBody
  | repeats (repeats : Int) (prompts : List Prompt)
            (trace : List (List Prompt)) : BlockBody
  | repeats_until (repeats_until : Condition) (prompts : List Prompt)
                  (trace : List (List Prompt)) : BlockBody
  | input (filename : Option String) (stdin : Bool) (message : Option String)
          (multiline : Bool) (json_content : Bool) : BlockBody
  | function (function : String) (body : Block) (scope : Option Scope) : BlockBody
  | call (call : String) (args : List (String × Value))
         (trace : Option Block) : BlockBody
  | error (msg : String) (block : Block) : BlockBody

/-- A prompt is a literal string or a nested block. -/
inductive Prompt : Type where
  | str (s : String) : Prompt
  | blk (b : Block) : Prompt

/-- A condition, with its result field (filled by the trace) and its
sub-prompt.  The `other` constructor stands for any condition value that
is neither an ends-with nor a contains condition and therefore reaches
the default case of process_condition. -/
inductive Condition : Type where
  | ends_with (arg0 : Prompt) (arg1 : String) (result : Option Bool) : Condition
  | contains (arg0 : Prompt) (arg1 : String) (result : Option Bool) : Condition
  | other (tag : String) : Condition
end

/-- ErrorBlock construction: a fresh block with default common fields
carrying the message and a copy of the offending block. -/
def mkErrorBlock (msg : String) (b : Block) : Block :=
  Block.mk [] none true none (BlockBody.error msg b)

/-- The oracles for all external collaborators, plus the two
environment variables the model backend requires.  An Except result
models the collaborator raising an exception with the given message;
python_exec returning (some none) models an execution whose namespace
lacks the designated result binding. -/
structure Env : Type where
  genai_api : Option String
  genai_key : Option String
  model_generate : String → String → List String → Bool → Except String String
  api_get : String → Except String Value
  python_exec : String → Except String (Option Value)
  read_file : String → Except String String
  stdin_line : String
  stdin_lines : List String
  json_loads : String → Except String Value

/-- Mutable runtime state threaded through evaluation: the closure heap
(Python object store for FunctionBlock copies) and the append-only
transcript log, one (title, content) entry per append_log call. -/
structure St : Type where
  heap : List Block
  log : List (String × String)

/-- append_log: push one labeled entry onto the transcript log. -/
def append_log (st : St) (title content : String) : St :=
  { st with log := st.log ++ [(title, content)] }

abbrev BlockRes : Type := Except Fatal (Value × String × Scope × Block × St)
abbrev PromptRes : Type := Except Fatal (Value × String × Scope × Prompt × St)
abbrev PromptsRes : Type := Except Fatal (Value × String × Scope × List Prompt × St)
abbrev CondRes : Type := Except Fatal (Bool × Scope × Condition × St)

/-- Python str() rendering of a value, used for the textual output of a
code block result.  String rendering of containers is approximate; no
verified property depends on the container formatting. -/
def str_of_value : Value → String
  | .null => "None"
  | .bool true => "True"
  | .bool false => "False"
  | .num n => toString n
  | .str s => s
  | .arr _ => "<list>"
  | .obj _ => "<dict>"
  | .closure _ => "<function>"

mutual
/-- json.dumps of a value; raises TypeError on a closure, which is not
JSON serializable.  String escaping is approximate; no verified property
depends on it. -/
def json_dumps : Value → Except Fatal String
  | .null => .ok "null"
  | .bool true => .ok "true"
  | .bool false => .ok "false"
  | .num n => .ok (toString n)
  | .str s => .ok ("\"" ++ s ++ "\"")
  | .arr vs => do
      let parts ← json_dumps_list vs
      .ok ("[" ++ String.intercalate ", " parts ++ "]")
  | .obj kvs => do
      let parts ← json_dumps_obj kvs
      .ok ("\x7b" ++ String.intercalate ", " parts ++ "\x7d")
  | .closure _ => .error (.typeError "Object of type FunctionBlock is not JSON serializable")

def json_dumps_list : List Value → Except Fatal (List String)
  | [] => .ok []
  | v :: vs => do
      let s ← json_dumps v
      let rest ← json_dumps_list vs
      .ok (s :: rest)

def json_dumps_obj : List (String × Value) → Except Fatal (List String)
  | [] => .ok []
  | (k, v) :: kvs => do
      let s ← json_dumps v
      let rest ← json_dumps_obj kvs
      .ok (("\"" ++ k ++ "\": " ++ s) :: rest)
end

/-- The textual output of a Get or Value block: the value itself if it
is a string, else its json.dumps serialization. -/
def value_output (v : Value) : Except Fatal String :=
  match v with
  | .str s => .ok s
  | v => json_dumps v

/-- Splitting a character list at every occurrence of a separator. -/
def split_chars (sep : Char) : List Char → List (List Char)
  | [] => [[]]
  | c :: rest =>
    match split_chars sep rest with
    | [] => [[]]
    | grp :: grps => if c = sep then [] :: grp :: grps else (c :: grp) :: grps

/-- The Python var.split call with separator dot. -/
def py_split_dot (s : String) : List String :=
  (split_chars '.' s.data).map String.mk

/-- The Python endswith test. -/
def py_endswith (s suffix : String) : Bool :=
  suffix.data.isSuffixOf s.data

/-- Substring search over character lists. -/
def py_in_go (p : List Char) : List Char → Bool
  | [] => p.isEmpty
  | c :: rest => p.isPrefixOf (c :: rest) || py_in_go p rest

/-- The Python in operator on strings. -/
def py_in (pat s : String) : Bool := py_in_go pat.data s.data

/-- Python substring test (the in operator on strings). -/
def str_contains (s pat : String) : Bool := py_in pat s

/-- Indexing res[v] of get_var: key access on a dict, a TypeError on
anything that a string key cannot index. -/
def index_value (v : Value) (k : String) : Except Fatal Value :=
  match v with
  | .obj kvs =>
      match lookupVar kvs k with
      | some v => .ok v
      | none => .error (.keyError k)
  | _ => .error (.typeError "value is not subscriptable by a string key")

/-- The trailing segments loop of get_var. -/
def get_var_go : Value → List String → Except Fatal Value
  | v, [] => .ok v
  | v, k :: rest => do
      let v₁ ← index_value v k
      get_var_go v₁ rest

/-- get_var: resolve a dot-separated variable path against the scope.
A missing first segment, or a missing later segment, raises a lookup
error that is not caught anywhere in the interpreter. -/
def get_var (var : String) (scope : Scope) : Except Fatal Value :=
  match py_split_dot var with
  | [] => .error (.keyError var)
  | seg :: rest =>
      match lookupVar scope seg with
      | none => .error (.keyError seg)
      | some v => get_var_go v rest

/-- process_input: local precondition checks produce Error blocks; the
actual read goes to the input-provider oracle (a failing file open is an
uncaught OSError).  The interactive message computation only affects the
console and is omitted. -/
def process_input (env : Env) (st : St) (scope : Scope) (block : Block) : BlockRes :=
  match block with
  | .mk defs assign show_result _ (.input filename stdin message multiline json_content) =>
    if (filename.isNone && !stdin) || (filename.isSome && stdin) then
      .ok (.null, "", scope,
           mkErrorBlock "Input block must have either a filename or stdin and not both" block, st)
    else if json_content && assign.isNone then
      .ok (.null, "", scope,
           mkErrorBlock "If json_content is True in input block, then there must be def field" block, st)
    else do
      let (s, st₁) ← (match filename with
        | some fn =>
          (match env.read_file fn with
           | .ok s => .ok (s, append_log st ("Input from File: " ++ fn) s)
           | .error e => .error (.ioError e) : Except Fatal (String × St))
        | none =>
          if multiline = false then
            .ok (env.stdin_line, append_log st "Input from stdin: " env.stdin_line)
          else
            let s := String.join (env.stdin_lines.map (fun l => l ++ "\n"))
            .ok (s, append_log st "Input from stdin: " s))
      let (result, scope₁) ← (if json_content && assign.isSome then
          match assign with
          | some var =>
            (match env.json_loads s with
             | .ok r => .ok (r, setVar scope var (.str s))
             | .error e => .error (.pythonError ("JSONDecodeError: " ++ e))
             : Except Fatal (Value × Scope))
          | none => .ok (.str s, scope)
        else .ok (.str s, scope))
      .ok (result, s, scope₁,
           Block.mk defs assign show_result (some s)
             (.input filename stdin message multiline json_content), st₁)
  | _ => .error .assertionError

mutual
/-- process_block: defs, then the body dispatch, then the assign
binding, the trace update, the show_result suppression and the final
context overwrite, exactly in the order of the source. -/
def process_block (env : Env) : Nat → St → Scope → Block → BlockRes
  | 0, _, _, _ => .error .outOfFuel
  | n+1, st, scope, block =>
    match block with
    | .mk defs assign show_result _ _ => do
      let (scope₁, defs_trace, st₁) ← (match defs with
        | [] => (.ok (scope, defs, st) : Except Fatal (Scope × List Block × St))
        | _ :: _ => process_defs env n st scope defs)
      let (result, output, scope₂, trace, st₂) ← process_block_body env n st₁ scope₁ block
      let scope₃ := match assign with
        | some var => setVar scope₂ var result
        | none => scope₂
      let trace₂ := match trace with
        | .mk _ a sr _ tbody => Block.mk defs_trace a sr (some output) tbody
      let output₂ := if show_result = false then "" else output
      let scope₄ := setVar scope₃ "context" (.str output₂)
      .ok (result, output₂, scope₄, trace₂, st₂)

/-- process_block_body: dispatch on the block variant.  The wildcard
case of the Python match (reached for instance by an ErrorBlock) is an
assert False, a fatal fault. -/
def process_block_body (env : Env) : Nat → St → Scope → Block → BlockRes
  | 0, _, _, _ => .error .outOfFuel
  | n+1, st, scope, block =>
    match block with
    | .mk defs assign show_result res body =>
      match body with
      | .model _ _ _ _ => call_model env n st scope block
      | .code lan code =>
        if lan = "python" then do
          let (result, output, scope₁, code_trace, st₁) ← call_python env n st scope code
          .ok (result, output, scope₁,
               Block.mk defs assign show_result res (.code lan code_trace), st₁)
        else
          .ok (.null, "", scope, mkErrorBlock ("Unsupported language: " ++ lan) block, st)
      | .get var => do
        let result ← get_var var scope
        let output ← value_output result
        .ok (result, output, scope, block, st)
      | .value v => do
        let output ← value_output v
        .ok (v, output, scope, block, st)
      | .api _ _ => call_api env n st scope block
      | .sequence prompts => do
        let (result, output, scope₁, ptrs, st₁) ← process_prompts env n st scope prompts
        .ok (result, output, scope₁,
             Block.mk defs assign show_result res (.sequence ptrs), st₁)
      | .ifte cond prompts => do
        let (b, _, cond_trace, st₁) ← process_condition env n st scope cond
        if b then do
          let (result, output, scope₂, ptrs, st₂) ← process_prompts env n st₁ scope prompts
          .ok (result, output, scope₂,
               Block.mk defs assign show_result res (.ifte cond_trace ptrs), st₂)
        else
          .ok (.null, "", scope,
               Block.mk defs assign show_result res (.ifte cond_trace prompts), st₁)
      | .repeats cnt prompts _ =>
        (match lookupVar scope "context" with
         | none => .error (.keyError "context")
         | some context_init => do
           let (result, output, scope₁, iterations_trace, st₁) ←
             repeats_loop env n st scope prompts context_init .null "" [] cnt.toNat
           .ok (result, output, scope₁,
                Block.mk defs assign show_result res (.repeats cnt prompts iterations_trace), st₁))
      | .repeats_until cond prompts _ =>
        (match lookupVar scope "context" with
         | none => .error (.keyError "context")
         | some context_init => do
           let (result, output, scope₁, iterations_trace, st₁) ←
             until_loop env n st scope cond prompts context_init .null "" []
           .ok (result, output, scope₁,
                Block.mk defs assign show_result res (.repeats_until cond prompts iterations_trace), st₁))
      | .input _ _ _ _ _ => process_input env st scope block
      | .function fname fbody _ =>
        let cid := st.heap.length
        let scope₁ := setVar scope fname (.closure cid)
        let clos := Block.mk defs assign show_result res (.function fname fbody (some scope₁))
        let st₁ := { st with heap := st.heap ++ [clos] }
        .ok (.closure cid, "", scope₁, clos, st₁)
      | .call f args _ => do
        let closv ← get_var f scope
        match closv with
        | .closure cid =>
          (match st.heap[cid]? with
           | some (.mk _ _ _ _ (.function _ f_body (some f_capt))) =>
             (match lookupVar scope "context" with
              | none => .error (.keyError "context")
              | some ctxv => do
                let f_scope := updScope (setVar f_capt "context" ctxv) args
                let (result, output, _, f_trace, st₁) ← process_block env n st f_scope f_body
                .ok (result, output, scope,
                     Block.mk defs assign show_result res (.call f args (some f_trace)), st₁))
           | some (.mk _ _ _ _ (.function _ _ none)) =>
             .error (.typeError "unsupported operand type for dict union: NoneType")
           | _ => .error (.attrError "closure fields"))
        | _ => .error (.attrError "body")
      | .error _ _ => .error .assertionError

/-- process_defs: evaluate the defs in order, threading the scope. -/
def process_defs (env : Env) : Nat → St → Scope → List Block → Except Fatal (Scope × List Block × St)
  | 0, _, _, _ => .error .outOfFuel
  | n+1, st, scope, defs => defs_loop env n st scope [] defs

/-- The for loop of process_defs. -/
def defs_loop (env : Env) : Nat → St → Scope → List Block → List Block → Except Fatal (Scope × List Block × St)
  | 0, _, _, _, _ => .error .outOfFuel
  | _+1, st, scope, acc, [] => .ok (scope, acc, st)
  | n+1, st, scope, acc, b :: bs => do
    let (_, _, scope₁, b_trace, st₁) ← process_block env n st scope b
    defs_loop env n st₁ scope₁ (acc ++ [b_trace]) bs

/-- process_prompts: snapshot the entry context, then run the loop. -/
def process_prompts (env : Env) : Nat → St → Scope → List Prompt → PromptsRes
  | 0, _, _, _ => .error .outOfFuel
  | n+1, st, scope, prompts =>
    match lookupVar scope "context" with
    | none => .error (.keyError "context")
    | some context_init => prompts_loop env n st scope context_init .null "" [] prompts

/-- The for loop of process_prompts: before each prompt the context is
reset to the entry snapshot plus the outputs accumulated so far.  The
concatenation raises a TypeError when the entry context is not a
string, just as the Python + does. -/
def prompts_loop (env : Env) : Nat → St → Scope → Value → Value → String → List Prompt → List Prompt → PromptsRes
  | 0, _, _, _, _, _, _, _ => .error .outOfFuel
  | _+1, st, scope, _, result, output, acc, [] => .ok (result, output, scope, acc, st)
  | n+1, st, scope, context_init, _, output, acc, p :: rest =>
    match context_init with
    | .str c => do
      let scope₁ := setVar scope "context" (.str (c ++ output))
      let (result, o, scope₂, ptr, st₁) ← process_prompt env n st scope₁ p
      prompts_loop env n st₁ scope₂ context_init result (output ++ o) (acc ++ [ptr]) rest
    | _ => .error (.typeError "can only concatenate str to str")

/-- process_prompt: a literal string is its own result, output and
trace and is logged; a block goes through process_block. -/
def process_prompt (env : Env) : Nat → St → Scope → Prompt → PromptRes
  | 0, _, _, _ => .error .outOfFuel
  | n+1, st, scope, p =>
    match p with
    | .str s => .ok (.str s, s, scope, .str s, append_log st "Prompt" s)
    | .blk b => do
      let (result, output, scope₁, btr, st₁) ← process_block env n st scope b
      .ok (result, output, scope₁, .blk btr, st₁)

/-- process_condition: dispatch on the condition kind; any condition
that is neither ends-with nor contains falls to the wildcard case,
which returns False with the condition unchanged as its trace. -/
def process_condition (env : Env) : Nat → St → Scope → Condition → CondRes
  | _, st, scope, .other tag => .ok (false, scope, .other tag, st)
  | 0, _, _, _ => .error .outOfFuel
  | n+1, st, scope, .ends_with arg0 arg1 _ => do
    let (result, scope₁, arg0_trace, st₁) ← ends_with env n st scope arg0 arg1
    .ok (result, scope₁, .ends_with arg0_trace arg1 (some result), st₁)
  | n+1, st, scope, .contains arg0 arg1 _ => do
    let (result, scope₁, arg0_trace, st₁) ← contains env n st scope arg0 arg1
    .ok (result, scope₁, .contains arg0_trace arg1 (some result), st₁)

/-- ends_with: evaluate the sub-prompt, restore the pre-evaluation
context into the resulting scope, test the suffix. -/
def ends_with (env : Env) : Nat → St → Scope → Prompt → String → Except Fatal (Bool × Scope × Prompt × St)
  | 0, _, _, _, _ => .error .outOfFuel
  | n+1, st, scope, arg0, arg1 =>
    match lookupVar scope "context" with
    | none => .error (.keyError "context")
    | some context_init => do
      let (_, output, scope₁, arg0_trace, st₁) ← process_prompt env n st scope arg0
      let scope₂ := setVar scope₁ "context" context_init
      .ok (py_endswith output arg1, scope₂, arg0_trace, st₁)

/-- contains: evaluate the sub-prompt, restore the pre-evaluation
context into the resulting scope, test the substring. -/
def contains (env : Env) : Nat → St → Scope → Prompt → String → Except Fatal (Bool × Scope × Prompt × St)
  | 0, _, _, _, _ => .error .outOfFuel
  | n+1, st, scope, arg0, arg1 =>
    match lookupVar scope "context" with
    | none => .error (.keyError "context")
    | some context_init => do
      let (_, output, scope₁, arg0_trace, st₁) ← process_prompt env n st scope arg0
      let scope₂ := setVar scope₁ "context" context_init
      .ok (str_contains output arg1, scope₂, arg0_trace, st₁)

/-- The for loop of the RepeatsBlock case: before each iteration the
context is reset to the loop-entry snapshot plus the outputs of all
prior iterations. -/
def repeats_loop (env : Env) : Nat → St → Scope → List Prompt → Value → Value → String → List (List Prompt) → Nat → Except Fatal (Value × String × Scope × List (List Prompt) × St)
  | 0, _, _, _, _, _, _, _, _ => .error .outOfFuel
  | _+1, st, scope, _, _, result, output, acc, 0 => .ok (result, output, scope, acc, st)
  | n+1, st, scope, prompts, context_init, _, output, acc, k+1 =>
    match context_init with
    | .str c => do
      let scope₁ := setVar scope "context" (.str (c ++ output))
      let (result, iteration_output, scope₂, ptrs, st₁) ← process_prompts env n st scope₁ prompts
      repeats_loop env n st₁ scope₂ prompts context_init result
        (output ++ iteration_output) (acc ++ [ptrs]) k
    | _ => .error (.typeError "can only concatenate str to str")

/-- The while loop of the RepeatsUntilBlock case: run one iteration,
then evaluate the condition against the resulting scope; stop on the
first true result.  The fuel bounds the number of iterations of this
intentionally unbounded loop. -/
def until_loop (env : Env) : Nat → St → Scope → Condition → List Prompt → Value → Value → String → List (List Prompt) → Except Fatal (Value × String × Scope × List (List Prompt) × St)
  | 0, _, _, _, _, _, _, _, _ => .error .outOfFuel
  | n+1, st, scope, cond, prompts, context_init, _, output, acc =>
    match context_init with
    | .str c => do
      let scope₁ := setVar scope "context" (.str (c ++ output))
      let (result, iteration_output, scope₂, ptrs, st₁) ← process_prompts env n st scope₁ prompts
      let output₁ := output ++ iteration_output
      let acc₁ := acc ++ [ptrs]
      let (stop, scope₃, _, st₂) ← process_condition env n st₁ scope₂ cond
      if stop then .ok (result, output₁, scope₃, acc₁, st₂)
      else until_loop env n st₂ scope₃ cond prompts context_init result output₁ acc₁
    | _ => .error (.typeError "can only concatenate str to str")

/-- call_model: choose the model input (explicit prompt if it
evaluates to non-empty text, the current context otherwise), check the
two environment variables, then delegate to the backend; a backend
failure becomes an Error trace node with None result and empty output.
A non-string context reaching the try block raises a TypeError inside
it (at the string concatenation in the first debug call) and is caught
like a backend failure. -/
def call_model (env : Env) : Nat → St → Scope → Block → BlockRes
  | 0, _, _, _ => .error .outOfFuel
  | n+1, st, scope, block =>
    match block with
    | .mk defs assign show_result res (.model mname minput mstops mincl) => do
      let (model_input₀, input_trace, st₁) ← (match minput with
        | some p =>
          (do
            let (_, mi, _, ptr, st₁) ← process_prompt env n st scope p
            .ok (mi, some ptr, st₁) : Except Fatal (String × Option Prompt × St))
        | none => .ok ("", none, st))
      let model_inputv ← (if model_input₀ = "" then
          (match lookupVar scope "context" with
           | none => .error (.keyError "context")
           | some v => .ok v : Except Fatal Value)
        else .ok (.str model_input₀))
      let stop_sequences := mstops.getD []
      let include_stop := mincl.getD false
      match env.genai_api with
      | none =>
        .ok (.null, "", scope,
             mkErrorBlock "Environment variable GENAI_API must be defined" block, st₁)
      | some _ =>
      match env.genai_key with
      | none =>
        .ok (.null, "", scope,
             mkErrorBlock "Environment variable GENAI_KEY must be defined" block, st₁)
      | some _ =>
      match model_inputv with
      | .str model_input =>
        let st₂ := append_log st₁ "Model Input" model_input
        (match env.model_generate mname model_input stop_sequences include_stop with
         | .ok gen =>
           let st₃ := append_log st₂ "Model Output" gen
           .ok (.str gen, gen, scope,
                Block.mk defs assign show_result (some gen)
                  (.model mname input_trace mstops mincl), st₃)
         | .error e =>
           .ok (.null, "", scope,
                mkErrorBlock ("Model error: " ++ e)
                  (Block.mk defs assign show_result res (.model mname input_trace mstops mincl)),
                st₂))
      | _ =>
        .ok (.null, "", scope,
             mkErrorBlock "Model error: can only concatenate str to str"
               (Block.mk defs assign show_result res (.model mname input_trace mstops mincl)),
             st₁)
    | _ => .error .assertionError

/-- call_api: evaluate the input prompt, concatenate it to the url, log,
then delegate to the HTTP oracle; any failure inside the try block
becomes an Error trace node with None result and empty output. -/
def call_api (env : Env) : Nat → St → Scope → Block → BlockRes
  | 0, _, _, _ => .error .outOfFuel
  | n+1, st, scope, block =>
    match block with
    | .mk defs assign show_result res (.api url inp) => do
      let (_, input_str₀, _, input_trace, st₁) ← process_prompt env n st scope inp
      let input_str := url ++ input_str₀
      let st₂ := append_log st₁ "API Input" input_str
      match env.api_get input_str with
      | .ok result =>
        (match value_output result with
         | .ok output =>
           let st₃ := append_log st₂ "API Output" output
           .ok (result, output, scope,
                Block.mk defs assign show_result res (.api url input_trace), st₃)
         | .error _ =>
           .ok (.null, "", scope,
                mkErrorBlock "API error: result is not JSON serializable"
                  (Block.mk defs assign show_result res (.api url input_trace)), st₂))
      | .error e =>
        .ok (.null, "", scope,
             mkErrorBlock ("API error: " ++ e)
               (Block.mk defs assign show_result res (.api url input_trace)), st₂)
    | _ => .error .assertionError

/-- call_python: render the code to text, execute it in the code
oracle.  There is no try here: a raising execution, or a namespace that
lacks the result binding, is an uncaught exception. -/
def call_python (env : Env) : Nat → St → Scope → List Prompt → Except Fatal (Value × String × Scope × List Prompt × St)
  | 0, _, _, _ => .error .outOfFuel
  | n+1, st, scope, code => do
    let (code_s, _, _, code_trace, st₁) ← get_code_string env n st scope code
    let st₂ := append_log st₁ "Code Input" code_s
    match env.python_exec code_s with
    | .error e => .error (.pythonError e)
    | .ok none => .error (.attrError "result")
    | .ok (some result) =>
      let output := str_of_value result
      let st₃ := append_log st₂ "Code Output" (str_of_value result)
      .ok (result, output, scope, code_trace, st₃)

/-- get_code_string: render the code prompts; the scope handed back is
the one received, not the one the rendering produced. -/
def get_code_string (env : Env) : Nat → St → Scope → List Prompt → Except Fatal (String × String × Scope × List Prompt × St)
  | 0, _, _, _ => .error .outOfFuel
  | n+1, st, scope, code => do
    let (_, code_s, _, code_trace, st₁) ← process_prompts env n st scope code
    .ok (code_s, code_s, scope, code_trace, st₁)
end

/-- Modelled from the spec (context accumulation law for Sequence): a
derivation witnesses that the prompts were evaluated left to right and
that the i-th prompt was presented with a context equal to the context
at node entry concatenated with the outputs of the previous prompts, in
order.  The prev index carries the outputs accumulated before the
remaining prompts run. -/
inductive SeqEval (env : Env) (ctxInit : String) :
    St → Scope → List String → List Prompt → List String → St → Scope → Prop where
  | nil : ∀ st scope prev, SeqEval env ctxInit st scope prev [] [] st scope
  | cons : ∀ f st scope prev p ps r o scope₁ ptr st₁ os st₂ scope₂,
      process_prompt env f st
          (setVar scope "context" (.str (ctxInit ++ String.join prev))) p
        = .ok (r, o, scope₁, ptr, st₁) →
      SeqEval env ctxInit st₁ scope₁ (prev ++ [o]) ps os st₂ scope₂ →
      SeqEval env ctxInit st scope prev (p :: ps) (o :: os) st₂ scope₂

/-- Modelled from the spec (context accumulation law for Repeats): the
same law at loop-iteration granularity: iteration i runs its prompt
sequence with a context equal to the context at loop entry concatenated
with the outputs of all prior iterations. -/
inductive RepEval (env : Env) (prompts : List Prompt) (ctxInit : String) :
    St → Scope → List String → Nat → List String → St → Scope → Prop where
  | nil : ∀ st scope prev, RepEval env prompts ctxInit st scope prev 0 [] st scope
  | cons : ∀ f st scope prev k r o scope₁ ptrs st₁ os st₂ scope₂,
      process_prompts env f st
          (setVar scope "context" (.str (ctxInit ++ String.join prev))) prompts
        = .ok (r, o, scope₁, ptrs, st₁) →
      RepEval env prompts ctxInit st₁ scope₁ (prev ++ [o]) k os st₂ scope₂ →
      RepEval env prompts ctxInit st scope prev (k+1) (o :: os) st₂ scope₂

/-- Modelled from the spec (do-while semantics of RepeatsUntil): a
derivation performs one iteration (with the Repeats accumulation law),
then evaluates the condition against the scope that iteration produced;
it stops at the first true condition and otherwise continues.  Both
constructors perform an iteration, so every derivation has at least
one; the list index collects exactly one prompts-trace per iteration. -/
inductive UntilEval (env : Env) (cond : Condition) (prompts : List Prompt) (ctxInit : String) :
    St → Scope → List String → List (List Prompt) → St → Scope → Prop where
  | last : ∀ f g st scope prev r o scope₁ ptrs st₁ scope₂ ctr st₂,
      process_prompts env f st
          (setVar scope "context" (.str (ctxInit ++ String.join prev))) prompts
        = .ok (r, o, scope₁, ptrs, st₁) →
      process_condition env g st₁ scope₁ cond = .ok (true, scope₂, ctr, st₂) →
      UntilEval env cond prompts ctxInit st scope prev [ptrs] st₂ scope₂
  | step : ∀ f g st scope prev r o scope₁ ptrs st₁ scope₂ ctr st₂ its st₃ scope₃,
      process_prompts env f st
          (setVar scope "context" (.str (ctxInit ++ String.join prev))) prompts
        = .ok (r, o, scope₁, ptrs, st₁) →
      process_condition env g st₁ scope₁ cond = .ok (false, scope₂, ctr, st₂) →
      UntilEval env cond prompts ctxInit st₂ scope₂ (prev ++ [o]) its st₃ scope₃ →
      UntilEval env cond prompts ctxInit st scope prev (ptrs :: its) st₃ scope₃

/-- A benign oracle environment for concrete runs: the model echoes its
input inside a marker, everything else succeeds with fixed data. -/
def env0 : Env where
  genai_api := some "api"
  genai_key := some "key"
  model_generate := fun _ inp _ _ => .ok ("GEN(" ++ inp ++ ")")
  api_get := fun _ => .ok (.str "resp")
  python_exec := fun _ => .ok (some (.num 42))
  read_file := fun _ => .ok "filecontents"
  stdin_line := "line"
  stdin_lines := ["l1", "l2"]
  json_loads := fun _ => .ok (.num 7)

/-- env0 with a failing model backend. -/
def envModelFail : Env := { env0 with model_generate := fun _ _ _ _ => .error "backend down" }

/-- env0 with a failing HTTP backend. -/
def envApiFail : Env := { env0 with api_get := fun _ => .error "connection refused" }

/-- env0 with a code executor that raises. -/
def envPyFail : Env := { env0 with python_exec := fun _ => .error "RuntimeError: boom" }

/-- env0 with a code executor whose namespace lacks the result binding. -/
def envPyNoResult : Env := { env0 with python_exec := fun _ => .ok none }

/-- Initial interpreter state: empty heap, empty log. -/
def st0 : St where
  heap := []
  log := []

/-- The empty_scope of the interpreter: just an empty context. -/
def scope0 : Scope := [("context", .str "")]

/-- A scope whose context holds the marker text CTX. -/
def scopeCTX : Scope := [("context", .str "CTX")]

/-- A literal-value block with default common fields. -/
def vblock (s : String) : Block := .mk [] none true none (.value (.str s))

/-- The concrete two-prompt sequence of the spec scenario. -/
def psHello : List Prompt := [.str "Hello ", .blk (vblock "World")]

/-- A model block that supplies an explicit input prompt evaluating to
the empty string. -/
def mblockEmptyIn : Block := .mk [] none true none (.model "m" (some (.str "")) none none)

/-- A model block with explicit non-empty input. -/
def mblockHi : Block := .mk [] none true none (.model "m" (some (.str "hi")) none none)

/-- A model block with no explicit input. -/
def mblockNoIn : Block := .mk [] none true none (.model "m" none none none)

/-- An api block fixture. -/
def apiBlk : Block := .mk [] none true none (.api "http://u/" (.str "q"))

/-- A captured scope, a closure over it in the heap, and a call site,
for the Call block fixtures. -/
def fcapt : Scope := [("context", .str "OLD"), ("x", .num 1)]

def closBlock : Block := .mk [] none true none (.function "f" (vblock "B") (some fcapt))

def stC4 : St where
  heap := [closBlock]
  log := []

def scopeC4 : Scope := [("context", .str "CTX"), ("f", .closure 0)]

def callBlk : Block := .mk [] none true none (.call "f" [("y", .num 2)] none)

/-- A fixed-count loop fixture: two iterations of one literal prompt. -/
def repBlk : Block := .mk [] none true none (.repeats 2 [.str "x"] [])

/-- A do-while fixture whose condition is true after the first
iteration (it would already be true on entry). -/
def untilBlk : Block :=
  .mk [] none true none (.repeats_until (.ends_with (.str "x") "x" none) [.str "a"] [])

/-- Input block fixtures violating each local precondition. -/
def inputNeither : Block := .mk [] none true none (.input none false none false false)

def inputJsonNoAssign : Block := .mk [] none true none (.input (some "f.json") false none false true)

/-- A scope holding a structured value, for dotted-path resolution. -/
def scopeC8 : Scope := [("context", .str ""), ("a", .obj [("b", .num 1)])]

theorem lookupVar_setVar_self (s : Scope) (k : String) (v : Value) :
    lookupVar (setVar s k v) k = some v := by
  induction s with
  | nil => simp [setVar, lookupVar]
  | cons hd tl ih =>
      obtain ⟨k₀, v₀⟩ := hd
      by_cases h : k₀ = k <;> simp [setVar, lookupVar, h, ih]

theorem lookupVar_setVar_ne (s : Scope) (k k₁ : String) (v : Value) (h : k ≠ k₁) :
    lookupVar (setVar s k v) k₁ = lookupVar s k₁ := by
  induction s with
  | nil => simp [setVar, lookupVar, h]
  | cons hd tl ih =>
      obtain ⟨k₀, v₀⟩ := hd
      by_cases h₀ : k₀ = k
      · subst h₀; simp [setVar, lookupVar, h]
      · simp [setVar, lookupVar, h₀, ih]

theorem lookupVar_eq_none_of_not_mem (s : Scope) (k : String)
    (h : k ∉ s.map Prod.fst) : lookupVar s k = none := by
  induction s with
  | nil => simp [lookupVar]
  | cons hd tl ih =>
      obtain ⟨k₀, v₀⟩ := hd
      simp only [List.map_cons, List.mem_cons] at h
      push_neg at h
      have hne : ¬ k₀ = k := fun hh => h.1 hh.symm
      simp [lookupVar, hne, ih h.2]

theorem lookupVar_updScope_of_none (args : List (String × Value)) (s : Scope) (k : String)
    (h : lookupVar args k = none) : lookupVar (updScope s args) k = lookupVar s k := by
  induction args generalizing s with
  | nil => simp [updScope]
  | cons hd tl ih =>
      obtain ⟨k₀, v₀⟩ := hd
      simp only [lookupVar] at h
      by_cases hk : k₀ = k
      · simp [hk] at h
      · simp only [if_neg hk] at h
        show lookupVar (updScope (setVar s k₀ v₀) tl) k = _
        rw [ih _ h, lookupVar_setVar_ne _ _ _ _ hk]

theorem lookupVar_updScope_of_some (args : List (String × Value)) (s : Scope) (k : String)
    (v : Value) (hnd : (args.map Prod.fst).Nodup) (h : lookupVar args k = some v) :
    lookupVar (updScope s args) k = some v := by
  induction args generalizing s with
  | nil => simp [lookupVar] at h
  | cons hd tl ih =>
      obtain ⟨k₀, v₀⟩ := hd
      simp only [List.map_cons, List.nodup_cons] at hnd
      simp only [lookupVar] at h
      by_cases hk : k₀ = k
      · subst hk
        rw [if_pos rfl] at h
        obtain rfl : v₀ = v := Option.some.inj h
        show lookupVar (updScope (setVar s k₀ v₀) tl) k₀ = _
        rw [lookupVar_updScope_of_none _ _ _
              (lookupVar_eq_none_of_not_mem _ _ hnd.1),
            lookupVar_setVar_self]
      · simp only [if_neg hk] at h
        exact ih _ hnd.2 h

theorem str_join_concat (l : List String) (s : String) :
    String.join (l ++ [s]) = String.join l ++ s := by
  simp [String.join, List.foldl_append]

theorem fatal_bind_ok {α β : Type} (a : α) (f : α → Except Fatal β) :
    (do let x ← (Except.ok a : Except Fatal α); f x) = f a := rfl

theorem fatal_bind_error {α β : Type} (e : Fatal) (f : α → Except Fatal β) :
    (do let x ← (Except.error e : Except Fatal α); f x) = .error e := rfl

/-- C10: a condition value that is neither an ends-with nor a contains
condition makes process_condition return False with the scope unchanged
and the original condition as its trace, at every fuel, never raising;
an unrecognized Block variant reaching the dispatcher, by contrast, is
an assertion failure. -/
theorem unknown_condition_is_harmless :
    (∀ (env : Env) (fuel : Nat) (st : St) (scope : Scope) (tag : String),
        process_condition env fuel st scope (.other tag) = .ok (false, scope, .other tag, st))
  ∧ (∀ (env : Env) (n : Nat) (st : St) (scope : Scope) (d : List Block)
       (a : Option String) (sr : Bool) (rs : Option String) (msg : String) (b : Block),
        process_block_body env (n+1) st scope (.mk d a sr rs (.error msg b))
          = .error .assertionError) := by
  constructor
  · intro env fuel st scope tag
    cases fuel <;> rfl
  · intro env n st scope d a sr rs msg b
    rfl

/-- C8: resolving a dotted variable path whose first segment is absent
from scope, or whose later segment is absent from the indexed
structure, raises a lookup error; the error is not converted into an
Error trace node and propagates out of the block evaluator.  An
unrecognized Block variant reaching the dispatcher is likewise a
non-recoverable assertion failure. -/
theorem fatal_lookup_and_dispatch_faults :
    (∀ (var : String) (scope : Scope) (seg : String) (rest : List String),
        py_split_dot var = seg :: rest → lookupVar scope seg = none →
        get_var var scope = .error (.keyError seg))
  ∧ (∀ (kvs : List (String × Value)) (k : String) (rest : List String),
        lookupVar kvs k = none →
        get_var_go (.obj kvs) (k :: rest) = .error (.keyError k))
  ∧ (∀ (env : Env) (n : Nat) (st : St) (scope : Scope) (var seg : String)
       (rest : List String) (d : List Block) (a : Option String) (sr : Bool)
       (rs : Option String),
        py_split_dot var = seg :: rest → lookupVar scope seg = none →
        process_block_body env (n+1) st scope (.mk d a sr rs (.get var))
          = .error (.keyError seg))
  ∧ (∀ (env : Env) (n : Nat) (st : St) (scope : Scope) (var seg : String)
       (rest : List String),
        py_split_dot var = seg :: rest → lookupVar scope seg = none →
        process_block env (n+2) st scope (.mk [] none true none (.get var))
          = .error (.keyError seg))
  ∧ (∀ (env : Env) (n : Nat) (st : St) (scope : Scope) (msg : String) (b : Block),
        process_block env (n+2) st scope (.mk [] none true none (.error msg b))
          = .error .assertionError) := by
  have hget : ∀ (var : String) (scope : Scope) (seg : String) (rest : List String),
      py_split_dot var = seg :: rest → lookupVar scope seg = none →
      get_var var scope = .error (.keyError seg) := by
    intro var scope seg rest hsplit hnone
    unfold get_var
    rw [hsplit]
    simp [hnone]
  refine ⟨hget, ?_, ?_, ?_, ?_⟩
  · intro kvs k rest hnone
    unfold get_var_go index_value
    simp [hnone, fatal_bind_error]
  · intro env n st scope var seg rest d a sr rs hsplit hnone
    have h1 := hget var scope seg rest hsplit hnone
    simp [process_block_body, h1, fatal_bind_error]
  · intro env n st scope var seg rest hsplit hnone
    have h1 := hget var scope seg rest hsplit hnone
    simp [process_block, process_block_body, h1, fatal_bind_ok, fatal_bind_error]
  · intro env n st scope msg b
    simp [process_block, process_block_body, fatal_bind_ok, fatal_bind_error]

/-- Witness for the fatal-fault theorem at concrete inputs: a missing
variable, a missing later segment, and an ErrorBlock at the dispatcher. -/
theorem fatal_lookup_witness :
    get_var "missing" scope0 = .error (.keyError "missing") ∧
    get_var_go (.obj [("b", .num 1)]) ["c"] = .error (.keyError "c") ∧
    process_block_body env0 5 st0 scope0 (.mk [] none true none (.get "missing"))
      = .error (.keyError "missing") ∧
    process_block env0 5 st0 scope0 (.mk [] none true none (.get "missing"))
      = .error (.keyError "missing") ∧
    process_block env0 5 st0 scope0 (.mk [] none true none (.error "e" (vblock "x")))
      = .error .assertionError :=
  ⟨fatal_lookup_and_dispatch_faults.1 "missing" scope0 "missing" [] rfl rfl,
   fatal_lookup_and_dispatch_faults.2.1 [("b", .num 1)] "c" [] rfl,
   fatal_lookup_and_dispatch_faults.2.2.1 env0 4 st0 scope0 "missing" "missing" [] [] none true none rfl rfl,
   fatal_lookup_and_dispatch_faults.2.2.2.1 env0 3 st0 scope0 "missing" "missing" [] rfl rfl,
   fatal_lookup_and_dispatch_faults.2.2.2.2 env0 3 st0 scope0 "e" (vblock "x")⟩

theorem ends_with_restores_context (env : Env) (n : Nat) (st : St) (scope : Scope)
    (arg0 : Prompt) (arg1 : String) (b : Bool) (scope₁ : Scope) (tr : Prompt) (st₁ : St)
    (h : ends_with env n st scope arg0 arg1 = .ok (b, scope₁, tr, st₁)) :
    lookupVar scope₁ "context" = lookupVar scope "context" := by
  cases n with
  | zero => simp [ends_with] at h
  | succ m =>
      rw [ends_with] at h
      cases hctx : lookupVar scope "context" with
      | none => rw [hctx] at h; simp at h
      | some ci =>
          cases hp : process_prompt env m st scope arg0 with
          | error e => rw [hctx, hp] at h; simp [fatal_bind_error] at h
          | ok t =>
              obtain ⟨r, o, sc, ptr, stx⟩ := t
              rw [hctx, hp] at h
              simp only [fatal_bind_ok] at h
              simp at h
              obtain ⟨hb, hsc, htr, hst⟩ := h
              rw [← hsc, lookupVar_setVar_self]

theorem contains_restores_context (env : Env) (n : Nat) (st : St) (scope : Scope)
    (arg0 : Prompt) (arg1 : String) (b : Bool) (scope₁ : Scope) (tr : Prompt) (st₁ : St)
    (h : contains env n st scope arg0 arg1 = .ok (b, scope₁, tr, st₁)) :
    lookupVar scope₁ "context" = lookupVar scope "context" := by
  cases n with
  | zero => simp [contains] at h
  | succ m =>
      rw [contains] at h
      cases hctx : lookupVar scope "context" with
      | none => rw [hctx] at h; simp at h
      | some ci =>
          cases hp : process_prompt env m st scope arg0 with
          | error e => rw [hctx, hp] at h; simp [fatal_bind_error] at h
          | ok t =>
              obtain ⟨r, o, sc, ptr, stx⟩ := t
              rw [hctx, hp] at h
              simp only [fatal_bind_ok] at h
              simp at h
              obtain ⟨hb, hsc, htr, hst⟩ := h
              rw [← hsc, lookupVar_setVar_self]

/-- C3: evaluating any condition (ends-with, contains, or anything
else) hands back a scope whose context entry is the one from before the
evaluation, even though the sub-prompt machinery inside updated it. -/
theorem condition_context_isolation (env : Env) (fuel : Nat) (st : St) (scope : Scope)
    (cond : Condition) (b : Bool) (scope₁ : Scope) (ctr : Condition) (st₁ : St)
    (h : process_condition env fuel st scope cond = .ok (b, scope₁, ctr, st₁)) :
    lookupVar scope₁ "context" = lookupVar scope "context" := by
  cases cond with
  | other tag =>
      cases fuel <;>
        · simp [process_condition] at h
          obtain ⟨-, h2, -, -⟩ := h
          rw [h2]
  | ends_with a0 a1 r0 =>
      cases fuel with
      | zero => simp [process_condition] at h
      | succ m =>
          rw [process_condition] at h
          cases hew : ends_with env m st scope a0 a1 with
          | error e => rw [hew] at h; simp [fatal_bind_error] at h
          | ok t =>
              obtain ⟨res, sc, tr, stx⟩ := t
              rw [hew, fatal_bind_ok] at h
              injection h with h
              have h2 : scope₁ = sc := by
                have := congrArg (fun x => x.2.1) h
                simpa using this.symm
              rw [h2]
              exact ends_with_restores_context env m st scope a0 a1 res sc tr stx hew
  | contains a0 a1 r0 =>
      cases fuel with
      | zero => simp [process_condition] at h
      | succ m =>
          rw [process_condition] at h
          cases hew : contains env m st scope a0 a1 with
          | error e => rw [hew] at h; simp [fatal_bind_error] at h
          | ok t =>
              obtain ⟨res, sc, tr, stx⟩ := t
              rw [hew, fatal_bind_ok] at h
              injection h with h
              have h2 : scope₁ = sc := by
                have := congrArg (fun x => x.2.1) h
                simpa using this.symm
              rw [h2]
              exact contains_restores_context env m st scope a0 a1 res sc tr stx hew

/-- Witness for condition context isolation at a concrete ends-with
condition whose sub-prompt runs and logs. -/
theorem condition_context_isolation_witness :
    process_condition env0 5 st0 scope0 (.ends_with (.str "abc") "bc" none)
      = .ok (true, scope0, .ends_with (.str "abc") "bc" (some true),
             { heap := [], log := [("Prompt", "abc")] }) ∧
    lookupVar scope0 "context" = lookupVar scope0 "context" :=
  ⟨rfl, condition_context_isolation env0 5 st0 scope0 (.ends_with (.str "abc") "bc" none)
          true scope0 (.ends_with (.str "abc") "bc" (some true))
          { heap := [], log := [("Prompt", "abc")] } rfl⟩

/-- C5: evaluating a Function block allocates a closure whose captured
scope binds the function name to the closure itself (the
self-reference enabling recursion); the result is the closure, the
output text is empty, and the very same closure block is stored in the
heap cell the result refers to. -/
theorem function_closure_self_reference (env : Env) (n : Nat) (st : St) (scope : Scope)
    (d : List Block) (a : Option String) (sr : Bool) (rs : Option String)
    (fname : String) (fbody : Block) :
    process_block_body env (n+1) st scope (.mk d a sr rs (.function fname fbody none))
      = .ok (.closure st.heap.length, "",
             setVar scope fname (.closure st.heap.length),
             .mk d a sr rs (.function fname fbody
               (some (setVar scope fname (.closure st.heap.length)))),
             { st with heap := st.heap ++
                 [.mk d a sr rs (.function fname fbody
                    (some (setVar scope fname (.closure st.heap.length))))] })
  ∧ lookupVar (setVar scope fname (.closure st.heap.length)) fname
      = some (.closure st.heap.length)
  ∧ ({ st with heap := st.heap ++
        [Block.mk d a sr rs (.function fname fbody
           (some (setVar scope fname (.closure st.heap.length))))] } : St).heap[st.heap.length]?
      = some (.mk d a sr rs (.function fname fbody
           (some (setVar scope fname (.closure st.heap.length))))) := by
  refine ⟨rfl, lookupVar_setVar_self _ _ _, ?_⟩
  simp [List.getElem?_concat_length]

/-- C9: a Code block in the supported language whose execution raises,
or whose execution namespace lacks the result binding, is an uncaught
exception: call_python and the dispatcher propagate it instead of
building an Error trace node. -/
theorem code_execution_faults_propagate :
    (∀ (env : Env) (n : Nat) (st : St) (scope : Scope) (code : List Prompt)
       (cs cs₂ : String) (sc : Scope) (ctr : List Prompt) (st₁ : St) (e : String),
        get_code_string env n st scope code = .ok (cs, cs₂, sc, ctr, st₁) →
        env.python_exec cs = .error e →
        call_python env (n+1) st scope code = .error (.pythonError e))
  ∧ (∀ (env : Env) (n : Nat) (st : St) (scope : Scope) (code : List Prompt)
       (cs cs₂ : String) (sc : Scope) (ctr : List Prompt) (st₁ : St),
        get_code_string env n st scope code = .ok (cs, cs₂, sc, ctr, st₁) →
        env.python_exec cs = .ok none →
        call_python env (n+1) st scope code = .error (.attrError "result"))
  ∧ (∀ (env : Env) (n : Nat) (st : St) (scope : Scope) (code : List Prompt)
       (cs cs₂ : String) (sc : Scope) (ctr : List Prompt) (st₁ : St) (e : String)
       (d : List Block) (a : Option String) (sr : Bool) (rs : Option String),
        get_code_string env n st scope code = .ok (cs, cs₂, sc, ctr, st₁) →
        env.python_exec cs = .error e →
        process_block_body env (n+2) st scope (.mk d a sr rs (.code "python" code))
          = .error (.pythonError e)) := by
  have h1 : ∀ (env : Env) (n : Nat) (st : St) (scope : Scope) (code : List Prompt)
      (cs cs₂ : String) (sc : Scope) (ctr : List Prompt) (st₁ : St) (e : String),
      get_code_string env n st scope code = .ok (cs, cs₂, sc, ctr, st₁) →
      env.python_exec cs = .error e →
      call_python env (n+1) st scope code = .error (.pythonError e) := by
    intro env n st scope code cs cs₂ sc ctr st₁ e hg hx
    rw [call_python, hg]
    simp [fatal_bind_ok, hx]
  refine ⟨h1, ?_, ?_⟩
  · intro env n st scope code cs cs₂ sc ctr st₁ hg hx
    rw [call_python, hg]
    simp [fatal_bind_ok, hx]
  · intro env n st scope code cs cs₂ sc ctr st₁ e d a sr rs hg hx
    have := h1 env n st scope code cs cs₂ sc ctr st₁ e hg hx
    simp [process_block_body, this, fatal_bind_error]

/-- Witness for code-fault propagation: a concrete one-prompt code body
under a raising executor and under an executor with no result binding. -/
theorem code_execution_faults_witness :
    get_code_string envPyFail 5 st0 scope0 [.str "boom"]
      = .ok ("boom", "boom", scope0, [.str "boom"],
             { heap := [], log := [("Prompt", "boom")] }) ∧
    envPyFail.python_exec "boom" = .error "RuntimeError: boom" ∧
    call_python envPyFail 6 st0 scope0 [.str "boom"]
      = .error (.pythonError "RuntimeError: boom") ∧
    call_python envPyNoResult 6 st0 scope0 [.str "boom"]
      = .error (.attrError "result") :=
  ⟨rfl, rfl,
   code_execution_faults_propagate.1 envPyFail 5 st0 scope0 [.str "boom"]
     "boom" "boom" scope0 [.str "boom"]
     { heap := [], log := [("Prompt", "boom")] } "RuntimeError: boom" rfl rfl,
   code_execution_faults_propagate.2.1 envPyNoResult 5 st0 scope0 [.str "boom"]
     "boom" "boom" scope0 [.str "boom"]
     { heap := [], log := [("Prompt", "boom")] } rfl rfl⟩

/-- C7: a failing model invocation (with or without an explicit input
prompt), a failing API call, and an Input block violating a local
precondition each produce an Error trace node carrying the message and
a copy of the attempted block (with the model input replaced by its
trace), with result None and empty output, returned normally (no
raised exception), so siblings and ancestors keep evaluating.  The mi
index is the evaluated explicit input (empty when none is given) and
mival the text handed to the backend, which is the context exactly
when mi is empty. -/
theorem recoverable_fault_containment :
    (∀ (env : Env) (n : Nat) (st : St) (scope : Scope) (d : List Block)
       (a : Option String) (sr : Bool) (rs : Option String)
       (mname : String) (minput : Option Prompt) (mstops : Option (List String))
       (mincl : Option Bool) (A K : String) (mi : String) (itr : Option Prompt)
       (st₁ : St) (mival e : String),
        env.genai_api = some A → env.genai_key = some K →
        ((minput = none ∧ mi = "" ∧ itr = none ∧ st₁ = st) ∨
         (∃ p r sc₁ ptr, minput = some p ∧
            process_prompt env n st scope p = .ok (r, mi, sc₁, ptr, st₁) ∧ itr = some ptr)) →
        (mi ≠ "" → mival = mi) →
        (mi = "" → lookupVar scope "context" = some (.str mival)) →
        env.model_generate mname mival (mstops.getD []) (mincl.getD false) = .error e →
        call_model env (n+1) st scope (.mk d a sr rs (.model mname minput mstops mincl))
          = .ok (.null, "", scope,
                 mkErrorBlock ("Model error: " ++ e)
                   (.mk d a sr rs (.model mname itr mstops mincl)),
                 append_log st₁ "Model Input" mival))
  ∧ (∀ (env : Env) (n : Nat) (st : St) (scope : Scope) (d : List Block)
       (a : Option String) (sr : Bool) (rs : Option String) (url : String)
       (inp : Prompt) (r₀ : Value) (istr : String) (sc₀ : Scope) (itr : Prompt)
       (st₁ : St) (e : String),
        process_prompt env n st scope inp = .ok (r₀, istr, sc₀, itr, st₁) →
        env.api_get (url ++ istr) = .error e →
        call_api env (n+1) st scope (.mk d a sr rs (.api url inp))
          = .ok (.null, "", scope,
                 mkErrorBlock ("API error: " ++ e) (.mk d a sr rs (.api url itr)),
                 append_log st₁ "API Input" (url ++ istr)))
  ∧ (∀ (env : Env) (st : St) (scope : Scope) (d : List Block) (a : Option String)
       (sr : Bool) (rs : Option String) (msg : Option String) (ml jc : Bool),
        process_input env st scope (.mk d a sr rs (.input none false msg ml jc))
          = .ok (.null, "", scope,
                 mkErrorBlock "Input block must have either a filename or stdin and not both"
                   (.mk d a sr rs (.input none false msg ml jc)), st))
  ∧ (∀ (env : Env) (st : St) (scope : Scope) (d : List Block) (a : Option String)
       (sr : Bool) (rs : Option String) (msg : Option String) (ml jc : Bool) (fn : String),
        process_input env st scope (.mk d a sr rs (.input (some fn) true msg ml jc))
          = .ok (.null, "", scope,
                 mkErrorBlock "Input block must have either a filename or stdin and not both"
                   (.mk d a sr rs (.input (some fn) true msg ml jc)), st))
  ∧ (∀ (env : Env) (st : St) (scope : Scope) (d : List Block) (sr : Bool)
       (rs : Option String) (msg : Option String) (ml : Bool) (fn : String),
        process_input env st scope (.mk d none sr rs (.input (some fn) false msg ml true))
          = .ok (.null, "", scope,
                 mkErrorBlock "If json_content is True in input block, then there must be def field"
                   (.mk d none sr rs (.input (some fn) false msg ml true)), st)) := by
  refine ⟨?_, ?_, ?_, ?_, ?_⟩
  · intro env n st scope d a sr rs mname minput mstops mincl A K mi itr st₁ mival e
      hA hK hinp hne hemp hgen
    rcases hinp with ⟨hmin, hmi, hitr, hst⟩ | ⟨p, r, sc₁, ptr, hmin, hp, hitr⟩
    · subst hmin; subst hmi; subst hitr; subst hst
      have hctx := hemp rfl
      rw [call_model]
      simp [hA, hK, hctx, hgen, fatal_bind_ok]
    · subst hmin; subst hitr
      by_cases hmi : mi = ""
      · subst hmi
        have hctx := hemp rfl
        rw [call_model]
        simp [hp, hA, hK, hctx, hgen, fatal_bind_ok]
      · obtain rfl : mival = mi := hne hmi
        rw [call_model]
        simp [hp, hA, hK, hmi, hgen, fatal_bind_ok]
  · intro env n st scope d a sr rs url inp r₀ istr sc₀ itr st₁ e hp happ
    rw [call_api, hp]
    simp [fatal_bind_ok, happ]
  · intro env st scope d a sr rs msg ml jc
    rw [process_input]
    simp
  · intro env st scope d a sr rs msg ml jc fn
    rw [process_input]
    simp
  · intro env st scope d sr rs msg ml fn
    rw [process_input]
    simp

/-- Witness for recoverable-fault containment: a failing backend both
without and with an explicit input prompt, a failing HTTP call, and
the two malformed Input configurations, at concrete inputs. -/
theorem recoverable_fault_containment_witness :
    envModelFail.genai_api = some "api" ∧
    envModelFail.model_generate "m" "CTX" [] false = .error "backend down" ∧
    call_model envModelFail 5 st0 scopeCTX mblockNoIn
      = .ok (.null, "", scopeCTX,
             mkErrorBlock "Model error: backend down" mblockNoIn,
             append_log st0 "Model Input" "CTX") ∧
    call_model envModelFail 5 st0 scopeCTX mblockHi
      = .ok (.null, "", scopeCTX,
             mkErrorBlock "Model error: backend down" mblockHi,
             append_log { heap := [], log := [("Prompt", "hi")] } "Model Input" "hi") ∧
    call_api envApiFail 5 st0 scope0 apiBlk
      = .ok (.null, "", scope0,
             mkErrorBlock "API error: connection refused" apiBlk,
             append_log { heap := [], log := [("Prompt", "q")] } "API Input" ("http://u/" ++ "q")) ∧
    process_input env0 st0 scope0 inputNeither
      = .ok (.null, "", scope0,
             mkErrorBlock "Input block must have either a filename or stdin and not both"
               inputNeither, st0) ∧
    process_input env0 st0 scope0 inputJsonNoAssign
      = .ok (.null, "", scope0,
             mkErrorBlock "If json_content is True in input block, then there must be def field"
               inputJsonNoAssign, st0) :=
  ⟨rfl, rfl,
   recoverable_fault_containment.1 envModelFail 4 st0 scopeCTX [] none true none
     "m" none none none "api" "key" "" none st0 "CTX" "backend down" rfl rfl
     (Or.inl ⟨rfl, rfl, rfl, rfl⟩) (fun h => absurd rfl h) (fun _ => rfl) rfl,
   recoverable_fault_containment.1 envModelFail 4 st0 scopeCTX [] none true none
     "m" (some (.str "hi")) none none "api" "key" "hi" (some (.str "hi"))
     { heap := [], log := [("Prompt", "hi")] } "hi" "backend down" rfl rfl
     (Or.inr ⟨.str "hi", .str "hi", scopeCTX, .str "hi", rfl, rfl, rfl⟩)
     (fun _ => rfl) (fun h => absurd h (by decide)) rfl,
   recoverable_fault_containment.2.1 envApiFail 4 st0 scope0 [] none true none
     "http://u/" (.str "q") (.str "q") "q" scope0 (.str "q")
     { heap := [], log := [("Prompt", "q")] } "connection refused" rfl rfl,
   recoverable_fault_containment.2.2.1 env0 st0 scope0 [] none true none none false false,
   recoverable_fault_containment.2.2.2.2 env0 st0 scope0 [] true none none false "f.json"⟩

/-- C4: a Call block resolves the closure, builds the call-time scope
as the captured scope overlaid with the caller context overlaid with
the explicit arguments (arguments beat context, context beats the rest
of the captured scope), evaluates the closure body there, and hands
back only result and output: the scope the body produced is discarded
and the caller scope is returned unchanged. -/
theorem call_scope_semantics (env : Env) (n : Nat) (st : St) (scope : Scope)
    (d : List Block) (a : Option String) (sr : Bool) (rs : Option String)
    (f : String) (args : List (String × Value)) (tr0 : Option Block)
    (r : Value) (out : String) (scope' : Scope) (tr : Block) (st' : St)
    (hnd : (args.map Prod.fst).Nodup)
    (h : process_block_body env (n+1) st scope (.mk d a sr rs (.call f args tr0))
           = .ok (r, out, scope', tr, st')) :
    scope' = scope ∧
    ∃ (cid : Nat) (cd : List Block) (ca : Option String) (csr : Bool)
      (crs : Option String) (cf : String) (fbody : Block) (fcapt : Scope)
      (ctxv : Value) (ftr : Block) (dsc : Scope),
      get_var f scope = .ok (.closure cid) ∧
      st.heap[cid]? = some (.mk cd ca csr crs (.function cf fbody (some fcapt))) ∧
      lookupVar scope "context" = some ctxv ∧
      process_block env n st (updScope (setVar fcapt "context" ctxv) args) fbody
        = .ok (r, out, dsc, ftr, st') ∧
      tr = .mk d a sr rs (.call f args (some ftr)) ∧
      (∀ k v, lookupVar args k = some v →
         lookupVar (updScope (setVar fcapt "context" ctxv) args) k = some v) ∧
      (lookupVar args "context" = none →
         lookupVar (updScope (setVar fcapt "context" ctxv) args) "context" = some ctxv) ∧
      (∀ k, k ≠ "context" → lookupVar args k = none →
         lookupVar (updScope (setVar fcapt "context" ctxv) args) k = lookupVar fcapt k) := by
  rw [process_block_body] at h
  cases hget : get_var f scope with
  | error e => simp [hget, fatal_bind_error] at h
  | ok v =>
      cases v with
      | closure cid =>
          cases hheap : st.heap[cid]? with
          | none => simp [hget, fatal_bind_ok, hheap] at h
          | some cb =>
              obtain ⟨cd, ca, csr, crs, cbody⟩ := cb
              cases cbody with
              | function cf fbody cscope =>
                  cases cscope with
                  | none => simp [hget, fatal_bind_ok, hheap] at h
                  | some fcapt =>
                      cases hctx : lookupVar scope "context" with
                      | none => simp [hget, fatal_bind_ok, hheap, hctx] at h
                      | some ctxv =>
                          cases hrun : process_block env n st
                              (updScope (setVar fcapt "context" ctxv) args) fbody with
                          | error e =>
                              simp [hget, fatal_bind_ok, hheap, hctx, hrun,
                                    fatal_bind_error] at h
                          | ok t =>
                              obtain ⟨rr, oo, dsc, ftr, stx⟩ := t
                              simp [hget, fatal_bind_ok, hheap, hctx, hrun] at h
                              obtain ⟨h1, h2, h3, h4, h5⟩ := h
                              subst h1; subst h2; subst h3; subst h5
                              refine ⟨rfl, cid, cd, ca, csr, crs, cf, fbody, fcapt,
                                      ctxv, ftr, dsc, rfl, hheap, rfl, ?_, ?_, ?_, ?_, ?_⟩
                              · rw [hrun]
                              · rw [← h4]
                              · intro k v hk
                                exact lookupVar_updScope_of_some args _ k v hnd hk
                              · intro hnone
                                rw [lookupVar_updScope_of_none args _ _ hnone,
                                    lookupVar_setVar_self]
                              · intro k hk hnone
                                rw [lookupVar_updScope_of_none args _ _ hnone,
                                    lookupVar_setVar_ne _ _ _ _ (fun hh => hk hh.symm)]
              | model i1 i2 i3 i4 => simp [hget, fatal_bind_ok, hheap] at h
              | code i1 i2 => simp [hget, fatal_bind_ok, hheap] at h
              | get i1 => simp [hget, fatal_bind_ok, hheap] at h
              | value i1 => simp [hget, fatal_bind_ok, hheap] at h
              | api i1 i2 => simp [hget, fatal_bind_ok, hheap] at h
              | sequence i1 => simp [hget, fatal_bind_ok, hheap] at h
              | ifte i1 i2 => simp [hget, fatal_bind_ok, hheap] at h
              | repeats i1 i2 i3 => simp [hget, fatal_bind_ok, hheap] at h
              | repeats_until i1 i2 i3 => simp [hget, fatal_bind_ok, hheap] at h
              | input i1 i2 i3 i4 i5 => simp [hget, fatal_bind_ok, hheap] at h
              | call i1 i2 i3 => simp [hget, fatal_bind_ok, hheap] at h
              | error i1 i2 => simp [hget, fatal_bind_ok, hheap] at h
      | null => simp [hget, fatal_bind_ok] at h
      | bool b => simp [hget, fatal_bind_ok] at h
      | num m => simp [hget, fatal_bind_ok] at h
      | str s => simp [hget, fatal_bind_ok] at h
      | arr vs => simp [hget, fatal_bind_ok] at h
      | obj kvs => simp [hget, fatal_bind_ok] at h

/-- Witness for the Call semantics at a concrete closure: heap cell 0
captures a scope with an old context and a binding x, the caller
context is CTX, the call passes argument y. -/
theorem call_scope_semantics_witness :
    scopeC4 = scopeC4 ∧
    ∃ (cid : Nat) (cd : List Block) (ca : Option String) (csr : Bool)
      (crs : Option String) (cf : String) (fbody : Block) (fcapt : Scope)
      (ctxv : Value) (ftr : Block) (dsc : Scope),
      get_var "f" scopeC4 = .ok (.closure cid) ∧
      stC4.heap[cid]? = some (.mk cd ca csr crs (.function cf fbody (some fcapt))) ∧
      lookupVar scopeC4 "context" = some ctxv ∧
      process_block env0 4 stC4 (updScope (setVar fcapt "context" ctxv) [("y", .num 2)]) fbody
        = .ok (.str "B", "B", dsc, ftr, stC4) ∧
      (Block.mk [] none true none (.call "f" [("y", .num 2)]
         (some (.mk [] none true (some "B") (.value (.str "B"))))))
        = .mk [] none true none (.call "f" [("y", .num 2)] (some ftr)) ∧
      (∀ k v, lookupVar [("y", .num 2)] k = some v →
         lookupVar (updScope (setVar fcapt "context" ctxv) [("y", .num 2)]) k = some v) ∧
      (lookupVar [("y", .num 2)] "context" = none →
         lookupVar (updScope (setVar fcapt "context" ctxv) [("y", .num 2)]) "context" = some ctxv) ∧
      (∀ k, k ≠ "context" → lookupVar [("y", .num 2)] k = none →
         lookupVar (updScope (setVar fcapt "context" ctxv) [("y", .num 2)]) k = lookupVar fcapt k) :=
  call_scope_semantics env0 4 stC4 scopeC4 [] none true none "f" [("y", .num 2)] none
    (.str "B") "B" scopeC4
    (.mk [] none true none (.call "f" [("y", .num 2)]
       (some (.mk [] none true (some "B") (.value (.str "B"))))))
    stC4 (by decide) rfl

/-- Counterexample to C2 as stated: this model block supplies an
explicit input prompt, the prompt evaluates (under the current scope)
to the empty string, and yet the text passed to the backend (logged as
Model Input immediately before the generate call, and echoed by the
env0 backend into its output) is the current context CTX, not the
evaluated explicit input. -/
theorem model_explicit_input_counterexample :
    process_prompt env0 5 st0 scopeCTX (.str "")
      = .ok (.str "", "", scopeCTX, .str "", { heap := [], log := [("Prompt", "")] }) ∧
    call_model env0 6 st0 scopeCTX mblockEmptyIn
      = .ok (.str "GEN(CTX)", "GEN(CTX)", scopeCTX,
             .mk [] none true (some "GEN(CTX)") (.model "m" (some (.str "")) none none),
             { heap := [],
               log := [("Prompt", ""), ("Model Input", "CTX"), ("Model Output", "GEN(CTX)")] }) ∧
    ("CTX" : String) ≠ "" :=
  ⟨rfl, rfl, by decide⟩

/-- C2 amended: the text passed to the model backend (the Model Input
log entry written immediately before the generate call, with the same
value handed to the backend) is the evaluated explicit input when one
is supplied and it is non-empty; it is the current context when no
input is supplied or the evaluated explicit input is empty. -/
theorem model_input_selection_amended (env : Env) (n : Nat) (st : St) (scope : Scope)
    (d : List Block) (a : Option String) (sr : Bool) (rs : Option String)
    (mname : String) (minput : Option Prompt) (mstops : Option (List String))
    (mincl : Option Bool) (A K : String) (mi : String) (itr : Option Prompt) (st₁ : St)
    (hA : env.genai_api = some A) (hK : env.genai_key = some K)
    (hinp : (minput = none ∧ mi = "" ∧ itr = none ∧ st₁ = st) ∨
            (∃ p r sc₁ ptr, minput = some p ∧
               process_prompt env n st scope p = .ok (r, mi, sc₁, ptr, st₁) ∧ itr = some ptr))
    (mival : String)
    (hsel : (mi ≠ "" → mival = mi) ∧
            (mi = "" → lookupVar scope "context" = some (.str mival))) :
    ∃ resv outv scv trv st₂,
      call_model env (n+1) st scope (.mk d a sr rs (.model mname minput mstops mincl))
        = .ok (resv, outv, scv, trv, st₂) ∧
      ("Model Input", mival) ∈ st₂.log := by
  rcases hinp with ⟨hmin, hmi, hitr, hst⟩ | ⟨p, r, sc₁, ptr, hmin, hp, hitr⟩
  · subst hmin; subst hmi; subst hst
    have hctx := hsel.2 rfl
    cases hg : env.model_generate mname mival (mstops.getD []) (mincl.getD false) with
    | ok gen =>
        refine ⟨.str gen, gen, scope,
                .mk d a sr (some gen) (.model mname none mstops mincl),
                append_log (append_log st₁ "Model Input" mival) "Model Output" gen,
                ?_, ?_⟩
        · rw [call_model]
          simp [hA, hK, hctx, hg, fatal_bind_ok]
        · simp [append_log]
    | error e =>
        refine ⟨.null, "", scope,
                mkErrorBlock ("Model error: " ++ e) (.mk d a sr rs (.model mname none mstops mincl)),
                append_log st₁ "Model Input" mival, ?_, ?_⟩
        · rw [call_model]
          simp [hA, hK, hctx, hg, fatal_bind_ok]
        · simp [append_log]
  · subst hmin; subst hitr
    by_cases hmi : mi = ""
    · subst hmi
      have hctx := hsel.2 rfl
      cases hg : env.model_generate mname mival (mstops.getD []) (mincl.getD false) with
      | ok gen =>
          refine ⟨.str gen, gen, scope,
                  .mk d a sr (some gen) (.model mname (some ptr) mstops mincl),
                  append_log (append_log st₁ "Model Input" mival) "Model Output" gen,
                  ?_, ?_⟩
          · rw [call_model]
            simp [hp, hA, hK, hctx, hg, fatal_bind_ok]
          · simp [append_log]
      | error e =>
          refine ⟨.null, "", scope,
                  mkErrorBlock ("Model error: " ++ e) (.mk d a sr rs (.model mname (some ptr) mstops mincl)),
                  append_log st₁ "Model Input" mival, ?_, ?_⟩
          · rw [call_model]
            simp [hp, hA, hK, hctx, hg, fatal_bind_ok]
          · simp [append_log]
    · obtain rfl : mival = mi := hsel.1 hmi
      cases hg : env.model_generate mname mival (mstops.getD []) (mincl.getD false) with
      | ok gen =>
          refine ⟨.str gen, gen, scope,
                  .mk d a sr (some gen) (.model mname (some ptr) mstops mincl),
                  append_log (append_log st₁ "Model Input" mival) "Model Output" gen,
                  ?_, ?_⟩
          · rw [call_model]
            simp [hp, hA, hK, hmi, hg, fatal_bind_ok]
          · simp [append_log]
      | error e =>
          refine ⟨.null, "", scope,
                  mkErrorBlock ("Model error: " ++ e) (.mk d a sr rs (.model mname (some ptr) mstops mincl)),
                  append_log st₁ "Model Input" mival, ?_, ?_⟩
          · rw [call_model]
            simp [hp, hA, hK, hmi, hg, fatal_bind_ok]
          · simp [append_log]

/-- Witness for the amended model-input selection at a concrete block
with a non-empty explicit input. -/
theorem model_input_selection_witness :
    ∃ resv outv scv trv st₂,
      call_model env0 5 st0 scopeCTX (.mk [] none true none (.model "m" (some (.str "hi")) none none))
        = .ok (resv, outv, scv, trv, st₂) ∧
      ("Model Input", "hi") ∈ st₂.log :=
  model_input_selection_amended env0 4 st0 scopeCTX [] none true none
    "m" (some (.str "hi")) none none "api" "key" "hi" (some (.str "hi"))
    { heap := [], log := [("Prompt", "hi")] } rfl rfl
    (Or.inr ⟨.str "hi", .str "hi", scopeCTX, .str "hi", rfl, rfl, rfl⟩)
    "hi" ⟨fun _ => rfl, fun h => absurd h (by decide)⟩

theorem str_foldl_append (l : List String) (a b : String) :
    l.foldl (fun r s => r ++ s) (a ++ b) = a ++ l.foldl (fun r s => r ++ s) b := by
  induction l generalizing b with
  | nil => rfl
  | cons c rest ih => simp only [List.foldl_cons, String.append_assoc, ih]

theorem str_join_cons (s : String) (l : List String) :
    String.join (s :: l) = s ++ String.join l := by
  show l.foldl (fun r t => r ++ t) ("" ++ s) = s ++ String.join l
  have h1 : ("" ++ s : String) = s ++ "" := by simp
  rw [h1, str_foldl_append]
  rfl

/-- The loop of process_prompts refines the spec-side sequence law: a
successful run whose accumulated output is the join of the previously
collected outputs yields a SeqEval derivation, whose every step
presents the next prompt with context equal to the entry snapshot plus
the outputs so far. -/
theorem prompts_loop_seq_eval (env : Env) :
    ∀ (ps : List Prompt) (fuel : Nat) (st : St) (scope : Scope) (c : String)
      (res : Value) (prev : List String) (acc : List Prompt)
      (res₁ : Value) (out₁ : String) (scope₁ : Scope) (tr₁ : List Prompt) (st₁ : St),
      prompts_loop env fuel st scope (.str c) res (String.join prev) acc ps
        = .ok (res₁, out₁, scope₁, tr₁, st₁) →
      ∃ os, os.length = ps.length ∧ out₁ = String.join prev ++ String.join os ∧
        SeqEval env c st scope prev ps os st₁ scope₁ := by
  intro ps
  induction ps with
  | nil =>
      intro fuel st scope c res prev acc res₁ out₁ scope₁ tr₁ st₁ h
      cases fuel with
      | zero => simp [prompts_loop] at h
      | succ m =>
          simp [prompts_loop] at h
          obtain ⟨h1, h2, h3, h4, h5⟩ := h
          refine ⟨[], rfl, ?_, ?_⟩
          · rw [← h2]; simp [String.join]
          · rw [← h3, ← h5]; exact SeqEval.nil st scope prev
  | cons p ps ih =>
      intro fuel st scope c res prev acc res₁ out₁ scope₁ tr₁ st₁ h
      cases fuel with
      | zero => simp [prompts_loop] at h
      | succ m =>
          rw [prompts_loop] at h
          cases hp : process_prompt env m st
              (setVar scope "context" (.str (c ++ String.join prev))) p with
          | error e => rw [hp] at h; simp [fatal_bind_error] at h
          | ok t =>
              obtain ⟨r, o, sc₂, ptr, st₂⟩ := t
              rw [hp] at h
              simp only [fatal_bind_ok] at h
              rw [show String.join prev ++ o = String.join (prev ++ [o]) from
                    (str_join_concat prev o).symm] at h
              obtain ⟨os, hlen, hout, hseq⟩ :=
                ih m st₂ sc₂ c r (prev ++ [o]) (acc ++ [ptr]) res₁ out₁ scope₁ tr₁ st₁ h
              refine ⟨o :: os, by simp [hlen], ?_, ?_⟩
              · rw [hout, str_join_concat, str_join_cons, String.append_assoc]
              · exact SeqEval.cons m st scope prev p ps r o sc₂ ptr st₂ os st₁ scope₁ hp hseq

/-- The loop of the RepeatsBlock case refines the spec-side repetition
law: every iteration runs the prompt sequence with context equal to
the loop-entry snapshot plus the outputs of all prior iterations. -/
theorem repeats_loop_rep_eval (env : Env) (prompts : List Prompt) :
    ∀ (k : Nat) (fuel : Nat) (st : St) (scope : Scope) (c : String)
      (res : Value) (prev : List String) (acc : List (List Prompt))
      (res₁ : Value) (out₁ : String) (scope₁ : Scope)
      (tr₁ : List (List Prompt)) (st₁ : St),
      repeats_loop env fuel st scope prompts (.str c) res (String.join prev) acc k
        = .ok (res₁, out₁, scope₁, tr₁, st₁) →
      ∃ os, os.length = k ∧ out₁ = String.join prev ++ String.join os ∧
        RepEval env prompts c st scope prev k os st₁ scope₁ := by
  intro k
  induction k with
  | zero =>
      intro fuel st scope c res prev acc res₁ out₁ scope₁ tr₁ st₁ h
      cases fuel with
      | zero => simp [repeats_loop] at h
      | succ m =>
          simp [repeats_loop] at h
          obtain ⟨h1, h2, h3, h4, h5⟩ := h
          refine ⟨[], rfl, ?_, ?_⟩
          · rw [← h2]; simp [String.join]
          · rw [← h3, ← h5]; exact RepEval.nil st scope prev
  | succ k ih =>
      intro fuel st scope c res prev acc res₁ out₁ scope₁ tr₁ st₁ h
      cases fuel with
      | zero => simp [repeats_loop] at h
      | succ m =>
          rw [repeats_loop] at h
          cases hpp : process_prompts env m st
              (setVar scope "context" (.str (c ++ String.join prev))) prompts with
          | error e => rw [hpp] at h; simp [fatal_bind_error] at h
          | ok t =>
              obtain ⟨r, o, sc₂, ptrs, st₂⟩ := t
              rw [hpp] at h
              simp only [fatal_bind_ok] at h
              rw [show String.join prev ++ o = String.join (prev ++ [o]) from
                    (str_join_concat prev o).symm] at h
              obtain ⟨os, hlen, hout, hrep⟩ :=
                ih m st₂ sc₂ c r (prev ++ [o]) (acc ++ [ptrs]) res₁ out₁ scope₁ tr₁ st₁ h
              refine ⟨o :: os, by simp [hlen], ?_, ?_⟩
              · rw [hout, str_join_concat, str_join_cons, String.append_assoc]
              · exact RepEval.cons m st scope prev k r o sc₂ ptrs st₂ os st₁ scope₁ hpp hrep

/-- C1: context accumulation law.  For a Sequence (process_prompts) the
i-th prompt is presented with the context at entry concatenated with
the outputs of the previous prompts in order, and for a Repeats block
the same law holds per iteration; the node output is the concatenation
of the per-prompt (per-iteration) outputs. -/
theorem context_accumulation_law :
    (∀ (env : Env) (fuel : Nat) (st : St) (scope : Scope) (ps : List Prompt)
       (c : String) (r : Value) (out : String) (scope₁ : Scope)
       (tr : List Prompt) (st₁ : St),
       lookupVar scope "context" = some (.str c) →
       process_prompts env fuel st scope ps = .ok (r, out, scope₁, tr, st₁) →
       ∃ os, os.length = ps.length ∧ out = String.join os ∧
         SeqEval env c st scope [] ps os st₁ scope₁)
  ∧ (∀ (env : Env) (fuel : Nat) (st : St) (scope : Scope) (d : List Block)
       (a : Option String) (sr : Bool) (rs : Option String) (cnt : Int)
       (prompts : List Prompt) (tr0 : List (List Prompt)) (c : String)
       (r : Value) (out : String) (scope₁ : Scope) (tr : Block) (st₁ : St),
       lookupVar scope "context" = some (.str c) →
       process_block_body env fuel st scope (.mk d a sr rs (.repeats cnt prompts tr0))
         = .ok (r, out, scope₁, tr, st₁) →
       ∃ os, os.length = cnt.toNat ∧ out = String.join os ∧
         RepEval env prompts c st scope [] cnt.toNat os st₁ scope₁) := by
  constructor
  · intro env fuel st scope ps c r out scope₁ tr st₁ hctx h
    cases fuel with
    | zero => simp [process_prompts] at h
    | succ m =>
        rw [process_prompts, hctx] at h
        obtain ⟨os, hlen, hout, hseq⟩ :=
          prompts_loop_seq_eval env ps m st scope c .null [] [] r out scope₁ tr st₁ h
        refine ⟨os, hlen, ?_, hseq⟩
        rw [hout]; simp [String.join]
  · intro env fuel st scope d a sr rs cnt prompts tr0 c r out scope₁ tr st₁ hctx h
    cases fuel with
    | zero => simp [process_block_body] at h
    | succ m =>
        rw [process_block_body, hctx] at h
        cases hloop : repeats_loop env m st scope prompts (.str c) .null "" [] cnt.toNat with
        | error e => simp [hloop, fatal_bind_error] at h
        | ok t =>
            obtain ⟨rr, oo, sc₂, its, st₂⟩ := t
            simp [hloop, fatal_bind_ok] at h
            obtain ⟨h1, h2, h3, h4, h5⟩ := h
            obtain ⟨os, hlen, hout, hrep⟩ :=
              repeats_loop_rep_eval env prompts cnt.toNat m st scope c .null [] [] rr oo sc₂ its st₂ hloop
            subst h1; subst h2; subst h3; subst h5
            refine ⟨os, hlen, ?_, hrep⟩
            rw [hout]; simp [String.join]

/-- Witness for the context accumulation law: the concrete two-step
Hello World sequence and a two-iteration fixed-count loop. -/
theorem context_accumulation_witness :
    (∃ os, os.length = psHello.length ∧ "Hello World" = String.join os ∧
       SeqEval env0 "" st0 scope0 [] psHello os
         { heap := [], log := [("Prompt", "Hello ")] }
         [("context", .str "World")]) ∧
    (∃ os, os.length = (2 : Int).toNat ∧ "xx" = String.join os ∧
       RepEval env0 [.str "x"] "" st0 scope0 [] (2 : Int).toNat os
         { heap := [], log := [("Prompt", "x"), ("Prompt", "x")] }
         [("context", .str "x")]) :=
  ⟨context_accumulation_law.1 env0 10 st0 scope0 psHello "" (.str "World") "Hello World"
     [("context", .str "World")]
     [.str "Hello ", .blk (.mk [] none true (some "World") (.value (.str "World")))]
     { heap := [], log := [("Prompt", "Hello ")] } rfl rfl,
   context_accumulation_law.2 env0 10 st0 scope0 [] none true none 2 [.str "x"] []
     "" (.str "x") "xx" [("context", .str "x")]
     (.mk [] none true none (.repeats 2 [.str "x"] [[.str "x"], [.str "x"]]))
     { heap := [], log := [("Prompt", "x"), ("Prompt", "x")] } rfl rfl⟩

/-- The while loop of the RepeatsUntilBlock case refines the spec-side
do-while law: every successful run consists of one or more iterations,
each followed by a condition evaluation against the scope that
iteration produced, stopping at the first true condition, with the
Repeats context-accumulation law per iteration. -/
theorem until_loop_until_eval (env : Env) (cond : Condition) (prompts : List Prompt) :
    ∀ (fuel : Nat) (st : St) (scope : Scope) (c : String) (res : Value)
      (prev : List String) (acc : List (List Prompt))
      (res₁ : Value) (out₁ : String) (scope₁ : Scope)
      (its₁ : List (List Prompt)) (st₁ : St),
      until_loop env fuel st scope cond prompts (.str c) res (String.join prev) acc
        = .ok (res₁, out₁, scope₁, its₁, st₁) →
      ∃ its, its₁ = acc ++ its ∧ 1 ≤ its.length ∧
        UntilEval env cond prompts c st scope prev its st₁ scope₁ := by
  intro fuel
  induction fuel with
  | zero =>
      intro st scope c res prev acc res₁ out₁ scope₁ its₁ st₁ h
      simp [until_loop] at h
  | succ m ih =>
      intro st scope c res prev acc res₁ out₁ scope₁ its₁ st₁ h
      rw [until_loop] at h
      cases hpp : process_prompts env m st
          (setVar scope "context" (.str (c ++ String.join prev))) prompts with
      | error e => rw [hpp] at h; simp [fatal_bind_error] at h
      | ok t =>
          obtain ⟨r, o, sc₂, ptrs, st₂⟩ := t
          rw [hpp] at h
          simp only [fatal_bind_ok] at h
          cases hc : process_condition env m st₂ sc₂ cond with
          | error e => rw [hc] at h; simp [fatal_bind_error] at h
          | ok tc =>
              obtain ⟨stop, sc₃, ctr, st₃⟩ := tc
              rw [hc] at h
              simp only [fatal_bind_ok] at h
              cases stop with
              | true =>
                  simp at h
                  obtain ⟨h1, h2, h3, h4, h5⟩ := h
                  subst h1; subst h3; subst h5
                  refine ⟨[ptrs], by rw [← h4], by simp, ?_⟩
                  exact UntilEval.last m m st scope prev r o sc₂ ptrs st₂ sc₃ ctr st₃ hpp hc
              | false =>
                  simp only [if_neg (by simp : ¬ (false = true))] at h
                  rw [show String.join prev ++ o = String.join (prev ++ [o]) from
                        (str_join_concat prev o).symm] at h
                  obtain ⟨its, hits, hlen, hev⟩ :=
                    ih st₃ sc₃ c r (prev ++ [o]) (acc ++ [ptrs]) res₁ out₁ scope₁ its₁ st₁ h
                  refine ⟨ptrs :: its, ?_, by simp, ?_⟩
                  · rw [hits]; simp
                  · exact UntilEval.step m m st scope prev r o sc₂ ptrs st₂ sc₃ ctr st₃
                      its st₁ scope₁ hpp hc hev

/-- C6: RepeatsUntil is a do-while loop: every successful evaluation
performs at least one iteration, evaluates the condition after each
iteration against the scope that iteration produced, stops at the
first true condition, and records exactly one iteration sub-trace per
iteration performed in the trace field. -/
theorem repeats_until_do_while (env : Env) (fuel : Nat) (st : St) (scope : Scope)
    (d : List Block) (a : Option String) (sr : Bool) (rs : Option String)
    (cond : Condition) (prompts : List Prompt) (tr0 : List (List Prompt))
    (c : String) (r : Value) (out : String) (scope₁ : Scope) (tr : Block) (st₁ : St)
    (hctx : lookupVar scope "context" = some (.str c))
    (h : process_block_body env fuel st scope
           (.mk d a sr rs (.repeats_until cond prompts tr0)) = .ok (r, out, scope₁, tr, st₁)) :
    ∃ its, tr = .mk d a sr rs (.repeats_until cond prompts its) ∧ 1 ≤ its.length ∧
      UntilEval env cond prompts c st scope [] its st₁ scope₁ := by
  cases fuel with
  | zero => simp [process_block_body] at h
  | succ m =>
      rw [process_block_body, hctx] at h
      cases hloop : until_loop env m st scope cond prompts (.str c) .null "" [] with
      | error e => simp [hloop, fatal_bind_error] at h
      | ok t =>
          obtain ⟨rr, oo, sc₂, its₂, st₂⟩ := t
          simp [hloop, fatal_bind_ok] at h
          obtain ⟨h1, h2, h3, h4, h5⟩ := h
          obtain ⟨its, hits, hlen, hev⟩ :=
            until_loop_until_eval env cond prompts m st scope c .null [] [] rr oo sc₂ its₂ st₂ hloop
          subst h3; subst h5
          refine ⟨its, ?_, hlen, hev⟩
          rw [← h4, hits]
          simp

/-- Witness for the do-while law: a loop whose condition is already
true on entry still performs exactly one iteration, and the trace
holds exactly one iteration sub-trace. -/
theorem repeats_until_do_while_witness :
    ∃ its, (Block.mk [] none true none
              (.repeats_until (.ends_with (.str "x") "x" none) [.str "a"] [[.str "a"]]))
             = .mk [] none true none (.repeats_until (.ends_with (.str "x") "x" none) [.str "a"] its) ∧
      1 ≤ its.length ∧
      UntilEval env0 (.ends_with (.str "x") "x" none) [.str "a"] "" st0 scope0 [] its
        { heap := [], log := [("Prompt", "a"), ("Prompt", "x")] }
        [("context", .str "")] :=
  repeats_until_do_while env0 10 st0 scope0 [] none true none
    (.ends_with (.str "x") "x" none) [.str "a"] [] "" (.str "a") "a"
    [("context", .str "")]
    (.mk [] none true none
       (.repeats_until (.ends_with (.str "x") "x" none) [.str "a"] [[.str "a"]]))
    { heap := [], log := [("Prompt", "a"), ("Prompt", "x")] } rfl rfl
